import Mathlib

/-!
Shallow embedding of the CHIP-8 interpreter from src/src/cpu/mod.rs.

The Cpu structure, the fetch / push / pop / call / ret / draw / skip_if /
bcd / load_regs / store_regs helpers and every arm of Cpu::execute are
translated from mod.rs. The Memory, Display, Timer and Opcode submodules
are not present in the sources, so their operations are modelled from the
spec (sections 4.1, 4.2, 4.4, 4.5); each such definition carries a doc
comment saying so. Machine integers are Nat with an explicit mod where
the Rust types wrap (u8: mod 256, u16: mod 65536). The thread-local
random generator is modelled by an explicit draw argument. A Rust
std process exit and a Rust panic are distinct Outcome constructors,
kept apart from an ordinary returned error value.
-/

/-- Modelled from the spec: instructions are 2 bytes wide (memory word size). -/
def WORD_SIZE : Nat := 2

/-- Modelled from the spec: the program-load base offset of the memory map. -/
def PROGRAM_CODE_BASE : Nat := 0x200

/-- Modelled from the spec: the call stack sits at the top of the 4096-byte
address space and grows downward from this base. -/
def STACK_BASE : Nat := 0x1000

/-- Modelled from the spec: Memory is a fixed-capacity byte array; we model it
as a total function from byte addresses to byte values (reads reduce values
mod 256, since the Rust cells are u8-typed). -/
abbrev Memory : Type := Nat → Nat

/-- Modelled from the spec: big-endian 16-bit read at addr, addr+1. -/
def Memory.read_u16_at (m : Memory) (a : Nat) : Nat :=
  m a % 256 * 256 + m (a + 1) % 256

/-- Modelled from the spec: big-endian 16-bit write at addr, addr+1
(value argument first, as in the source call sites). -/
def Memory.write_u16_at (m : Memory) (v a : Nat) : Memory :=
  fun a2 => if a2 = a then v / 256 % 256 else if a2 = a + 1 then v % 256 else m a2

/-- Modelled from the spec: block write of a contiguous run of len bytes
starting at addr, taking byte j of the run from src j. -/
def Memory.write_at (m : Memory) (src : Nat → Nat) (len a : Nat) : Memory :=
  fun a2 => if a ≤ a2 ∧ a2 < a + len then src (a2 - a) % 256 else m a2

/-- Modelled from the spec: the display grid is 64 columns wide. -/
def DISPLAY_WIDTH : Nat := 64

/-- Modelled from the spec: the display grid is 32 rows high. -/
def DISPLAY_HEIGHT : Nat := 32

/-- Modelled from the spec: a fixed-size monochrome pixel grid (row, column). -/
structure Display where
  grid : Nat → Nat → Bool

/-- Modelled from the spec: clear resets every cell to unlit. -/
def Display.clear : Display := ⟨fun _ _ => false⟩

/-- Modelled from the spec: bit c of a sprite row byte, most significant bit
first (c = 0 is the leftmost pixel of the row). -/
def spriteBit (b c : Nat) : Bool := b / 2 ^ (7 - c) % 2 == 1

/-- Modelled from the spec: XOR one sprite bit into the grid cell (row, col);
the second component reports a collision, i.e. a previously lit pixel that
this bit turns off. -/
def Display.xorPixel (d : Display) (row col : Nat) (bit : Bool) : Display × Bool :=
  (⟨fun r c =>
      if r = row then
        if c = col then Bool.xor (d.grid row col) bit else d.grid r c
      else d.grid r c⟩,
   d.grid row col && bit)

/-- Modelled from the spec: XOR-blit the sprite rows at position (x, y) with
wraparound addressing; the second component is the collision flag. -/
def Display.draw (d : Display) (sprite : List Nat) (x y : Nat) : Display × Bool :=
  (List.range sprite.length).foldl
    (fun acc r =>
      (List.range 8).foldl
        (fun acc2 c =>
          let p := acc2.1.xorPixel ((y + r) % DISPLAY_HEIGHT) ((x + c) % DISPLAY_WIDTH)
            (spriteBit (sprite.getD r 0) c)
          (p.1, acc2.2 || p.2))
        acc)
    (d, false)

/-- The Cpu state from mod.rs: sixteen 8-bit general purpose registers, the
program counter, the index register, the stack pointer, the memory, the
display and the delay timer (the timer counter is its whole state, per the
spec). The rng field of the source is replaced by an explicit random draw
argument to execution. -/
structure Cpu where
  gpr : Fin 16 → Nat
  program_counter : Nat
  index : Nat
  stack_pointer : Nat
  memory : Memory
  display : Display
  delay_timer : Nat

/-- The result of one execute step. The ok constructor is a completed step.
The error constructor is a failure value returned to the caller (a reported,
catchable failure as the spec section 7 demands); the source never produces
it. The exit constructor models std process exit with the given code, after
printing the offending opcode value and address: the process terminates
abruptly and the caller cannot intercept it. The panicked constructor models
a Rust panic (for example rand gen_range on an empty range). -/
inductive Outcome where
  | ok (s : Cpu)
  | error (opcode : Nat) (addr : Nat)
  | exit (code : Nat) (opcode : Nat) (addr : Nat)
  | panicked

/-- A decoded instruction: one constructor per arm of the match in
Cpu::execute, with the operand fields the arm reads. Register indices are
4-bit, hence Fin 16. -/
inductive Instr where
  | jmp (addr : Nat)
  | jmpV0 (addr : Nat)
  | call (addr : Nat)
  | ret
  | movByte (x : Fin 16) (kk : Nat)
  | movReg (x y : Fin 16)
  | movI (addr : Nat)
  | movDT (x : Fin 16)
  | movFromDT (x : Fin 16)
  | addByte (x : Fin 16) (kk : Nat)
  | addReg (x y : Fin 16)
  | addI (x : Fin 16)
  | subReg (x y : Fin 16)
  | rsubReg (x y : Fin 16)
  | orReg (x y : Fin 16)
  | andReg (x y : Fin 16)
  | xorReg (x y : Fin 16)
  | shr (x : Fin 16)
  | shl (x : Fin 16)
  | rnd (x : Fin 16) (kk : Nat)
  | skeByte (x : Fin 16) (kk : Nat)
  | skeReg (x y : Fin 16)
  | skneByte (x : Fin 16) (kk : Nat)
  | skneReg (x y : Fin 16)
  | cls
  | drw (x y : Fin 16) (n : Nat)
  | bcd (x : Fin 16)
  | ldRegs (x : Fin 16)
  | strRegs (x : Fin 16)
  | font (x : Fin 16)
  deriving DecidableEq

/-- Modelled from the spec: the four 4-bit nibbles of a 16-bit word, most
significant first; nibble 0. -/
def nib0 (w : Nat) : Nat := w / 4096 % 16

/-- Modelled from the spec: nibble 1 of the word (the reg1 field). -/
def nib1 (w : Nat) : Nat := w / 256 % 16

/-- Modelled from the spec: nibble 2 of the word (the reg2 field). -/
def nib2 (w : Nat) : Nat := w / 16 % 16

/-- Modelled from the spec: nibble 3 of the word (the size nibble field). -/
def nib3 (w : Nat) : Nat := w % 16

/-- Modelled from the spec: the low 8 bits of the word (the byte field). -/
def byteOf (w : Nat) : Nat := w % 256

/-- Modelled from the spec: the low 12 bits of the word (the address field,
called tribble in the source). -/
def tribble (w : Nat) : Nat := w % 4096

/-- A 4-bit nibble value as a register index. -/
def nibFin (n : Nat) : Fin 16 := ⟨n % 16, Nat.mod_lt n (by norm_num)⟩

/-- Modelled from the spec: the dispatch table of section 4.2, matching the
4-nibble tuple of the fetched word against the fixed nibble patterns of the
classic CHIP-8 encoding, one pattern per arm of the match in Cpu::execute;
an unmatched word is a decode failure (none). -/
def decode (w : Nat) : Option Instr :=
  match nib0 w with
  | 0x0 =>
      if nib1 w = 0x0 ∧ nib2 w = 0xE ∧ nib3 w = 0x0 then some .cls
      else if nib1 w = 0x0 ∧ nib2 w = 0xE ∧ nib3 w = 0xE then some .ret
      else none
  | 0x1 => some (.jmp (tribble w))
  | 0x2 => some (.call (tribble w))
  | 0x3 => some (.skeByte (nibFin (nib1 w)) (byteOf w))
  | 0x4 => some (.skneByte (nibFin (nib1 w)) (byteOf w))
  | 0x5 => if nib3 w = 0x0 then some (.skeReg (nibFin (nib1 w)) (nibFin (nib2 w))) else none
  | 0x6 => some (.movByte (nibFin (nib1 w)) (byteOf w))
  | 0x7 => some (.addByte (nibFin (nib1 w)) (byteOf w))
  | 0x8 =>
      match nib3 w with
      | 0x0 => some (.movReg (nibFin (nib1 w)) (nibFin (nib2 w)))
      | 0x1 => some (.orReg (nibFin (nib1 w)) (nibFin (nib2 w)))
      | 0x2 => some (.andReg (nibFin (nib1 w)) (nibFin (nib2 w)))
      | 0x3 => some (.xorReg (nibFin (nib1 w)) (nibFin (nib2 w)))
      | 0x4 => some (.addReg (nibFin (nib1 w)) (nibFin (nib2 w)))
      | 0x5 => some (.subReg (nibFin (nib1 w)) (nibFin (nib2 w)))
      | 0x6 => some (.shr (nibFin (nib1 w)))
      | 0x7 => some (.rsubReg (nibFin (nib1 w)) (nibFin (nib2 w)))
      | 0xE => some (.shl (nibFin (nib1 w)))
      | _ => none
  | 0x9 => if nib3 w = 0x0 then some (.skneReg (nibFin (nib1 w)) (nibFin (nib2 w))) else none
  | 0xA => some (.movI (tribble w))
  | 0xB => some (.jmpV0 (tribble w))
  | 0xC => some (.rnd (nibFin (nib1 w)) (byteOf w))
  | 0xD => some (.drw (nibFin (nib1 w)) (nibFin (nib2 w)) (nib3 w))
  | 0xF =>
      match nib2 w with
      | 0x0 => if nib3 w = 0x7 then some (.movFromDT (nibFin (nib1 w))) else none
      | 0x1 =>
          if nib3 w = 0x5 then some (.movDT (nibFin (nib1 w)))
          else if nib3 w = 0xE then some (.addI (nibFin (nib1 w)))
          else none
      | 0x2 => if nib3 w = 0x9 then some (.font (nibFin (nib1 w))) else none
      | 0x3 => if nib3 w = 0x3 then some (.bcd (nibFin (nib1 w))) else none
      | 0x5 => if nib3 w = 0x5 then some (.strRegs (nibFin (nib1 w))) else none
      | 0x6 => if nib3 w = 0x5 then some (.ldRegs (nibFin (nib1 w))) else none
      | _ => none
  | _ => none

/-- Cpu::fetch_instruction: read the word at the program counter and advance
the program counter by one instruction width. -/
def Cpu.fetch_instruction (s : Cpu) : Nat × Cpu :=
  (s.memory.read_u16_at s.program_counter,
   { s with program_counter := s.program_counter + WORD_SIZE })

/-- Cpu::push: decrement the stack pointer by a word and write the 16-bit
value there. -/
def Cpu.push (s : Cpu) (v : Nat) : Cpu :=
  { s with stack_pointer := s.stack_pointer - WORD_SIZE,
           memory := s.memory.write_u16_at v (s.stack_pointer - WORD_SIZE) }

/-- Cpu::pop: read the 16-bit value at the stack pointer and increment the
stack pointer by a word. -/
def Cpu.pop (s : Cpu) : Cpu × Nat :=
  ({ s with stack_pointer := s.stack_pointer + WORD_SIZE },
   s.memory.read_u16_at s.stack_pointer)

/-- Cpu::call: push the current program counter (cast to u16, hence mod
65536) and jump to addr. -/
def Cpu.call (s : Cpu) (addr : Nat) : Cpu :=
  { s.push (s.program_counter % 65536) with program_counter := addr }

/-- Cpu::ret: pop the return address into the program counter. -/
def Cpu.ret (s : Cpu) : Cpu :=
  let p := s.pop
  { p.1 with program_counter := p.2 }

/-- Cpu::draw: assert the sprite height is at most 15 (a Rust panic
otherwise), read the sprite rows from memory at the index register, blit
them and store the collision flag into register VF. -/
def Cpu.draw (s : Cpu) (x y z : Nat) : Outcome :=
  if z ≤ 15 then
    let sprite := (List.range z).map fun i => s.memory (s.index + i) % 256
    let p := s.display.draw sprite x y
    .ok { s with display := p.1,
                 gpr := Function.update s.gpr 15 (if p.2 then 1 else 0) }
  else .panicked

/-- Cpu::skip_if: advance the program counter by one extra instruction width
when the predicate holds. -/
def Cpu.skip_if (s : Cpu) (p : Bool) : Cpu :=
  if p then { s with program_counter := s.program_counter + WORD_SIZE } else s

/-- Cpu::bcd: write the three decimal digits of the number (hundreds, tens,
ones) into memory at the index register. -/
def Cpu.bcd (s : Cpu) (number : Nat) : Cpu :=
  let m2 :=
    s.memory.write_at
      (fun j => List.getD [number / 100 % 10, number / 10 % 10, number % 10] j 0)
      3 s.index
  { s with memory := m2 }

/-- Cpu::load_regs: copy registers 0 through reg_count inclusive from memory
starting at the index register. -/
def Cpu.load_regs (s : Cpu) (reg_count : Fin 16) : Cpu :=
  let g2 : Fin 16 → Nat := fun i =>
    if i.val ≤ reg_count.val then s.memory (s.index + i.val) % 256 else s.gpr i
  { s with gpr := g2 }

/-- Cpu::store_regs: copy registers 0 through reg_count inclusive into memory
starting at the index register. -/
def Cpu.store_regs (s : Cpu) (reg_count : Fin 16) : Cpu :=
  let m2 := s.memory.write_at (fun j => s.gpr (nibFin j)) (reg_count.val + 1) s.index
  { s with memory := m2 }

/-- Models rand gen_range(low, high) at the random draw r: a uniform value in
the half-open range from low to high; an empty range (low not below high) is
a Rust panic (none). -/
def gen_range (low high r : Nat) : Option Nat :=
  if low < high then some (low + r % (high - low)) else none

/-- The body of the match in Cpu::execute, one case per arm, acting on the
post-fetch state; r is the random draw consumed by the RND arm. The ADD and
SUB arms reproduce the source exactly: they compute a wrapping sum or
difference and discard it (no write-back to the register, no VF update), so
they leave the state unchanged. The SHR and SHL arms likewise reproduce the
source: the bit fetched before the shift is discarded, only the shift is
applied. The RND arm computes kk + 1 in u8 (wrapping to 0 when kk = 255; a
checked build would already panic on the increment) and panics on an empty
gen_range, as rand does. -/
def Cpu.execInstr (s : Cpu) (r : Nat) : Instr → Outcome
  | .jmp addr => .ok { s with program_counter := addr }
  | .jmpV0 addr => .ok { s with program_counter := (addr + s.gpr 0) % 65536 }
  | .call addr => .ok (s.call addr)
  | .ret => .ok s.ret
  | .movByte x kk => .ok { s with gpr := Function.update s.gpr x kk }
  | .movReg x y => .ok { s with gpr := Function.update s.gpr x (s.gpr y) }
  | .movI addr => .ok { s with index := addr }
  | .movDT x => .ok { s with delay_timer := s.gpr x }
  | .movFromDT x => .ok { s with gpr := Function.update s.gpr x (s.delay_timer % 256) }
  | .addByte _ _ => .ok s
  | .addReg _ _ => .ok s
  | .addI _ => .ok s
  | .subReg _ _ => .ok s
  | .rsubReg x y => .ok { s with gpr := Function.update s.gpr x ((s.gpr y + 256 - s.gpr x) % 256) }
  | .orReg x y => .ok { s with gpr := Function.update s.gpr x (Nat.lor (s.gpr x) (s.gpr y)) }
  | .andReg x y => .ok { s with gpr := Function.update s.gpr x (Nat.land (s.gpr x) (s.gpr y)) }
  | .xorReg x y => .ok { s with gpr := Function.update s.gpr x (Nat.xor (s.gpr x) (s.gpr y)) }
  | .shr x => .ok { s with gpr := Function.update s.gpr x (s.gpr x / 2) }
  | .shl x => .ok { s with gpr := Function.update s.gpr x (s.gpr x * 2 % 256) }
  | .rnd x kk =>
      match gen_range 0 ((kk + 1) % 256) r with
      | some v => .ok { s with gpr := Function.update s.gpr x v }
      | none => .panicked
  | .skeByte x kk => .ok (s.skip_if (s.gpr x == kk))
  | .skeReg x y => .ok (s.skip_if (s.gpr x == s.gpr y))
  | .skneByte x kk => .ok (s.skip_if (!(s.gpr x == kk)))
  | .skneReg x y => .ok (s.skip_if (!(s.gpr x == s.gpr y)))
  | .cls => .ok { s with display := Display.clear }
  | .drw x y n => s.draw (s.gpr x) (s.gpr y) n
  | .bcd x => .ok (s.bcd (s.gpr x))
  | .ldRegs x => .ok (s.load_regs x)
  | .strRegs x => .ok (s.store_regs x)
  | .font x => .ok { s with index := s.gpr x * 5 % 256 }

/-- Cpu::execute: fetch the word at the program counter (advancing it by 2),
decode it and run the matching arm; a word matching no pattern prints the
opcode value and its fetch address (the advanced program counter minus 2)
and terminates the process with exit code 1. -/
def Cpu.execute (s : Cpu) (r : Nat) : Outcome :=
  let f := s.fetch_instruction
  match decode f.1 with
  | some i => f.2.execInstr r i
  | none => .exit 1 f.1 (f.2.program_counter - 2)

/-- The all-zero memory image. -/
def zeroMem : Memory := fun _ => 0

/-- A base CPU state as Cpu::new leaves it, with an empty program image. -/
def cpu0 : Cpu :=
  { gpr := fun _ => 0
    program_counter := PROGRAM_CODE_BASE
    index := 0
    stack_pointer := STACK_BASE
    memory := zeroMem
    display := Display.clear
    delay_timer := 0 }

/-- Reading a 16-bit word back from the address it was just written to
returns the written value, for values that fit in 16 bits. -/
theorem read_write_u16 (m : Memory) (v a : Nat) (hv : v < 65536) :
    (m.write_u16_at v a).read_u16_at a = v := by
  unfold Memory.read_u16_at Memory.write_u16_at
  rw [if_pos rfl, if_neg (by omega), if_pos rfl]
  omega

/-- The CPU state exercising the ADD Vx,Vy arm: V1 = 1, V2 = 2, VF = 7. -/
def c1Cpu : Cpu :=
  { cpu0 with gpr := fun i => if i = 1 then 1 else if i = 2 then 2 else if i = 15 then 7 else 0 }

/-- C1: the ADD Vx,Vy arm computes the wrapping sum and discards it, so with
V1 = 1 and V2 = 2 the whole state is left unchanged: V1 stays 1 instead of
becoming (1 + 2) mod 256 = 3, and VF stays 7 instead of the carry bit. -/
theorem add_reg_discards_sum :
    Cpu.execInstr c1Cpu 0 (Instr.addReg 1 2) = Outcome.ok c1Cpu
    ∧ c1Cpu.gpr 1 = 1 ∧ c1Cpu.gpr 2 = 2 ∧ c1Cpu.gpr 15 = 7
    ∧ (c1Cpu.gpr 1 + c1Cpu.gpr 2) % 256 = 3 :=
  ⟨rfl, by decide, by decide, by decide, by decide⟩

/-- The CPU state exercising the SUB and RSUB arms: V1 = 5, V2 = 3. -/
def c2Cpu : Cpu :=
  { cpu0 with gpr := fun i => if i = 1 then 5 else if i = 2 then 3 else 0 }

/-- C2: the SUB Vx,Vy arm computes the wrapping difference and discards it,
so with V1 = 5 and V2 = 3 the state is unchanged (V1 stays 5 instead of
becoming (5 - 3) mod 256 = 2); the RSUB arm does write back, storing
(3 - 5) mod 256 = 254 into V1. -/
theorem sub_discards_difference_rsub_writes_back :
    Cpu.execInstr c2Cpu 0 (Instr.subReg 1 2) = Outcome.ok c2Cpu
    ∧ c2Cpu.gpr 1 = 5 ∧ c2Cpu.gpr 2 = 3
    ∧ (c2Cpu.gpr 1 + 256 - c2Cpu.gpr 2) % 256 = 2
    ∧ Cpu.execInstr c2Cpu 0 (Instr.rsubReg 1 2) =
        Outcome.ok { c2Cpu with gpr := Function.update c2Cpu.gpr 1 254 } :=
  ⟨rfl, by decide, by decide, by decide, rfl⟩

/-- The CPU state exercising the SHR arm: V1 = 3 (low bit 1), VF = 7. -/
def c3Cpu : Cpu :=
  { cpu0 with gpr := fun i => if i = 1 then 3 else if i = 15 then 7 else 0 }

/-- C3: the SHR arm reads a register bit and discards it, so with
V1 = 0b00000011 the shift is applied (V1 becomes 0b00000001) but VF is never
written: it stays 7 instead of the captured low bit 1. -/
theorem shr_discards_captured_bit :
    Cpu.execInstr c3Cpu 0 (Instr.shr 1) =
      Outcome.ok { c3Cpu with gpr := Function.update c3Cpu.gpr 1 1 }
    ∧ c3Cpu.gpr 1 = 3 ∧ c3Cpu.gpr 15 = 7
    ∧ (Function.update c3Cpu.gpr 1 1) 15 = 7 :=
  ⟨rfl, by decide, by decide, by decide⟩

/-- A CPU state whose next word is 0xFFFF, matching no instruction pattern. -/
def c4Cpu : Cpu :=
  { cpu0 with memory := fun a => if a = 0x200 ∨ a = 0x201 then 0xFF else 0 }

/-- C4 counterexample: at the unmatched word 0xFFFF fetched from 0x200 the
step is not a returned, catchable error value carrying the opcode and its
address; it is a process exit with code 1. -/
theorem unknown_opcode_exits_process :
    Cpu.execute c4Cpu 0 ≠ Outcome.error 0xFFFF 0x200
    ∧ Cpu.execute c4Cpu 0 = Outcome.exit 1 0xFFFF 0x200 := by
  have h : Cpu.execute c4Cpu 0 = Outcome.exit 1 0xFFFF 0x200 := rfl
  refine ⟨?_, h⟩
  rw [h]
  exact fun hc => Outcome.noConfusion hc

/-- C4 amended: on every fetched word matching no entry of the dispatch
table, execution halts by terminating the process with exit code 1 after
reporting the offending opcode value and its fetch address; the failure is a
process exit, not a value the caller can intercept. -/
theorem unknown_opcode_reports_and_exits (s : Cpu) (r : Nat)
    (h : decode (s.memory.read_u16_at s.program_counter) = none) :
    Cpu.execute s r =
      Outcome.exit 1 (s.memory.read_u16_at s.program_counter) s.program_counter := by
  simp only [Cpu.execute, Cpu.fetch_instruction, h]
  simp [WORD_SIZE]

/-- C4 amended, witness: the unmatched word 0xFFFF at address 0x200 exits the
process reporting opcode 0xFFFF and address 0x200. -/
theorem unknown_opcode_reports_and_exits_w :
    Cpu.execute c4Cpu 0 =
      Outcome.exit 1 (c4Cpu.memory.read_u16_at c4Cpu.program_counter) c4Cpu.program_counter :=
  unknown_opcode_reports_and_exits c4Cpu 0 (by decide)

/-- The CPU state exercising the FONT arm at V1 = 16. -/
def c5Cpu : Cpu :=
  { cpu0 with gpr := fun i => if i = 1 then 16 else 0 }

/-- C5 counterexample: FONT Vx with V1 = 16 sets the index register to
16 * 5 = 80, not to (16 mod 16) * 5 = 0 as the claim states: the code never
masks the register to its low nibble. -/
theorem font_ignores_low_nibble :
    Cpu.execInstr c5Cpu 0 (Instr.font 1) = Outcome.ok { c5Cpu with index := 80 }
    ∧ c5Cpu.gpr 1 = 16 ∧ 16 % 16 * 5 = 0 ∧ (80 : Nat) ≠ 0 :=
  ⟨rfl, by decide, by decide, by decide⟩

/-- C5 amended: for register values at most 15 (the only values with a font
glyph) FONT Vx sets the index register to the glyph address
(Vx mod 16) * 5 = Vx * 5; in general the code computes the unmasked 8-bit
product Vx * 5 mod 256. -/
theorem font_glyph_address (s : Cpu) (r : Nat) (x : Fin 16) (h : s.gpr x ≤ 15) :
    Cpu.execInstr s r (Instr.font x) = Outcome.ok { s with index := s.gpr x % 16 * 5 } := by
  have h1 : s.gpr x * 5 % 256 = s.gpr x % 16 * 5 := by
    rw [Nat.mod_eq_of_lt (by omega), Nat.mod_eq_of_lt (by omega)]
  show Outcome.ok { s with index := s.gpr x * 5 % 256 } = _
  rw [h1]

/-- C5 amended, witness: FONT at V1 = 3 sets the index register to the glyph
address 15. -/
theorem font_glyph_address_w :
    Cpu.execInstr c3Cpu 0 (Instr.font 1) =
      Outcome.ok { c3Cpu with index := c3Cpu.gpr 1 % 16 * 5 } :=
  font_glyph_address c3Cpu 0 1 (by decide)

/-- C6: the RND arm computes kk + 1 as an 8-bit value, so at kk = 255 the
increment wraps to 0 (a checked build already panics on it) and gen_range is
called on the empty range and panics, for every random draw; at kk = 0 the
instruction does complete and always stores 0, as the claim says. -/
theorem rnd_255_panics :
    Cpu.execInstr cpu0 0 (Instr.rnd 1 255) = Outcome.panicked
    ∧ ∀ r : Nat, Cpu.execInstr cpu0 r (Instr.rnd 1 0) =
        Outcome.ok { cpu0 with gpr := Function.update cpu0.gpr 1 0 } := by
  refine ⟨rfl, fun r => ?_⟩
  simp [Cpu.execInstr, gen_range, Nat.mod_one]

/-- C7: executing a CALL instruction and, from any later state whose stack
pointer and pushed stack word are as the CALL left them (the stack otherwise
balanced), executing a RET restores the program counter to the instruction
immediately following the CALL. -/
theorem call_then_ret_returns_after_call (s t s1 : Cpu) (r1 r2 : Nat) (addr : Nat)
    (hpc : s.program_counter + WORD_SIZE < 65536)
    (_hsp : WORD_SIZE ≤ s.stack_pointer)
    (henc : decode (s.memory.read_u16_at s.program_counter) = some (Instr.call addr))
    (h1 : Cpu.execute s r1 = Outcome.ok s1)
    (ht_sp : t.stack_pointer = s1.stack_pointer)
    (ht_m0 : t.memory t.stack_pointer = s1.memory s1.stack_pointer)
    (ht_m1 : t.memory (t.stack_pointer + 1) = s1.memory (s1.stack_pointer + 1))
    (hret : decode (t.memory.read_u16_at t.program_counter) = some Instr.ret) :
    ∃ t2, Cpu.execute t r2 = Outcome.ok t2
      ∧ t2.program_counter = s.program_counter + WORD_SIZE := by
  simp only [Cpu.execute, Cpu.fetch_instruction, henc, Cpu.execInstr, Cpu.call, Cpu.push,
    Outcome.ok.injEq] at h1
  subst h1
  simp only [Cpu.execute, Cpu.fetch_instruction, hret, Cpu.execInstr, Cpu.ret, Cpu.pop]
  refine ⟨_, rfl, ?_⟩
  simp only [Memory.read_u16_at, Memory.write_u16_at] at ht_m0 ht_m1 ⊢
  simp only [ht_sp] at ht_m0 ht_m1 ⊢
  rw [ht_m0, ht_m1]
  rw [if_pos trivial]
  rw [if_neg (show s.stack_pointer - WORD_SIZE + 1 ≠ s.stack_pointer - WORD_SIZE from by omega)]
  rw [if_pos trivial]
  simp only [WORD_SIZE] at hpc ⊢
  omega

/-- A memory image holding CALL 0x300 at address 0x200 and RET at 0x300. -/
def c7mem : Memory := fun a =>
  if a = 0x200 then 0x23 else if a = 0x201 then 0x00 else
  if a = 0x300 then 0x00 else if a = 0x301 then 0xEE else 0

/-- The CPU about to execute the CALL of c7mem. -/
def c7s : Cpu := { cpu0 with memory := c7mem }

/-- The CPU as the CALL of c7mem leaves it, about to execute the RET. -/
def c7s1 : Cpu :=
  { c7s with program_counter := 0x300
             stack_pointer := 0xFFE
             memory := c7s.memory.write_u16_at 0x202 0xFFE }

/-- C7 witness: CALL 0x300 executed at 0x200 followed by RET at 0x300
returns to 0x202, the instruction after the CALL. -/
theorem call_then_ret_returns_after_call_w :
    ∃ t2, Cpu.execute c7s1 0 = Outcome.ok t2
      ∧ t2.program_counter = c7s.program_counter + WORD_SIZE :=
  call_then_ret_returns_after_call c7s c7s1 c7s1 0 0 0x300 (by decide) (by decide) (by decide)
    rfl rfl rfl rfl (by decide)

/-- C8: STR [I],Vx followed by an arbitrary overwrite of the register file
(same index register and memory) and then LD Vx,[I] restores registers 0
through x inclusive to their original values, and the load leaves every
register above x at its overwritten value: neither operation touches the
registers above x. -/
theorem str_then_ld_restores_low_regs (s : Cpu) (x : Fin 16) (g2 : Fin 16 → Nat)
    (hbytes : ∀ i : Fin 16, i.val ≤ x.val → s.gpr i < 256) :
    (∀ i : Fin 16, i.val ≤ x.val →
        (Cpu.load_regs { Cpu.store_regs s x with gpr := g2 } x).gpr i = s.gpr i)
    ∧ (∀ i : Fin 16, x.val < i.val →
        (Cpu.load_regs { Cpu.store_regs s x with gpr := g2 } x).gpr i = g2 i) := by
  constructor
  · intro i hi
    simp only [Cpu.load_regs, Cpu.store_regs, Memory.write_at]
    rw [if_pos hi, if_pos (by omega)]
    rw [show s.index + i.val - s.index = i.val from by omega]
    rw [show nibFin i.val = i from Fin.ext (Nat.mod_eq_of_lt i.isLt)]
    have hb := hbytes i hi
    omega
  · intro i hi
    simp only [Cpu.load_regs]
    rw [if_neg (by omega)]

/-- A CPU with distinct register contents to exercise the STR/LD round trip. -/
def c8Cpu : Cpu := { cpu0 with gpr := fun i => 10 + i.val, index := 0x400 }

/-- C8 witness: storing V0..V2, overwriting every register with 99, then
loading V0..V2 restores V0..V2 and leaves the registers above at 99. -/
theorem str_then_ld_restores_low_regs_w :
    (∀ i : Fin 16, i.val ≤ (2 : Fin 16).val →
        (Cpu.load_regs { Cpu.store_regs c8Cpu 2 with gpr := fun _ => 99 } 2).gpr i = c8Cpu.gpr i)
    ∧ (∀ i : Fin 16, (2 : Fin 16).val < i.val →
        (Cpu.load_regs { Cpu.store_regs c8Cpu 2 with gpr := fun _ => 99 } 2).gpr i = 99) :=
  str_then_ld_restores_low_regs c8Cpu 2 (fun _ => 99) (by decide)


/-- The instructions whose handlers modify the program counter beyond the
fetch advance: the two jumps, call, ret and the four skips. -/
def Instr.controlFlow : Instr → Bool
  | .jmp _ => true
  | .jmpV0 _ => true
  | .call _ => true
  | .ret => true
  | .skeByte _ _ => true
  | .skeReg _ _ => true
  | .skneByte _ _ => true
  | .skneReg _ _ => true
  | _ => false

/-- C9: a step that completes while executing any decoded instruction other
than the jump, call, ret and skip handlers leaves the program counter at its
pre-fetch value plus one instruction width (2 bytes); no other handler
modifies the program counter. -/
theorem noncontrol_step_advances_pc (s s2 : Cpu) (r : Nat) (i : Instr)
    (hdec : decode (s.memory.read_u16_at s.program_counter) = some i)
    (hcf : i.controlFlow = false)
    (hok : Cpu.execute s r = Outcome.ok s2) :
    s2.program_counter = s.program_counter + WORD_SIZE := by
  simp only [Cpu.execute, Cpu.fetch_instruction, hdec] at hok
  cases i <;> try (simp only [Instr.controlFlow, Bool.true_eq_false] at hcf)
  all_goals
    first
      | (simp only [Cpu.execInstr, Outcome.ok.injEq] at hok
         subst hok
         rfl)
      | (simp only [Cpu.execInstr, Cpu.draw] at hok
         split at hok
         all_goals
           first
             | exact Outcome.noConfusion hok
             | (simp only [Outcome.ok.injEq] at hok
                subst hok
                rfl))

/-- A CPU whose next word is MOV V1, 0x05 (opcode 0x6105). -/
def c9s : Cpu :=
  { cpu0 with memory := fun a => if a = 0x200 then 0x61 else if a = 0x201 then 0x05 else 0 }

/-- The state after executing the MOV V1, 0x05 of c9s. -/
def c9s2 : Cpu :=
  { c9s with program_counter := 0x202, gpr := Function.update c9s.gpr 1 5 }

/-- C9 witness: the MOV V1, 0x05 step advances the program counter from
0x200 to exactly 0x202. -/
theorem noncontrol_step_advances_pc_w :
    c9s2.program_counter = c9s.program_counter + WORD_SIZE :=
  noncontrol_step_advances_pc c9s c9s2 0 (Instr.movByte 1 5) (by decide) (by decide) rfl

/-- C10: the sprite-height operand of every decoded DRW instruction is a
4-bit nibble of the opcode, hence at most 15, so the sprite-size assertion
in the draw routine cannot fail (the arm never panics) for any fetched
word. -/
theorem drw_height_at_most_15 (w : Nat) (x y : Fin 16) (n : Nat) (s : Cpu) (r : Nat)
    (h : decode w = some (Instr.drw x y n)) :
    n ≤ 15 ∧ Cpu.execInstr s r (Instr.drw x y n) ≠ Outcome.panicked := by
  have h16 : nib3 w < 16 := Nat.mod_lt _ (by norm_num)
  have hn : n ≤ 15 := by
    unfold decode at h
    split at h
    all_goals try split at h
    all_goals try split at h
    all_goals try split at h
    all_goals
      first
        | exact Option.noConfusion h
        | (injection h with h2
           first
             | exact Instr.noConfusion h2
             | (injection h2 with e1 e2 e3
                omega))
  refine ⟨hn, ?_⟩
  simp only [Cpu.execInstr, Cpu.draw, if_pos hn]
  exact fun hc => Outcome.noConfusion hc

/-- C10 witness: the word 0xD12F decodes to DRW V1,V2,15, its height 15
satisfies the assertion bound, and the arm does not panic. -/
theorem drw_height_at_most_15_w :
    15 ≤ 15 ∧ Cpu.execInstr cpu0 0 (Instr.drw 1 2 15) ≠ Outcome.panicked :=
  drw_height_at_most_15 0xD12F 1 2 15 cpu0 0 (by decide)
